import Mathlib

/-!
Verification development for the TAP command-line argument parsing library
(hbruintjes/tap). The definitions below are a shallow embedding of the C++
sources: each definition mirrors one function of the library, translated
statement by statement. Occurrence counters are C++ `unsigned int`; all the
values reachable in the claims are tiny, so they are modelled as `Nat`
(no overflow is exercised). Exceptions become `Except`/`Option` errors.
-/

namespace TAP

/-- Errors raised by the argument model, mirroring the exception taxonomy of
Exceptions.hpp. `countMismatch` carries the actual count and the expected
bound (`argument_count_mismatch(arg, count, expected)`); `invalidValue`
carries the offending token (`argument_invalid_value(arg, value)`). -/
inductive ArgError where
  | countMismatch (count expected : Nat)
  | invalidValue (token : String)
  | missingValue
  | noValue
  | logicError (msg : String)
  deriving DecidableEq, Repr

/-- The state of one declared argument (`basic_argument` in
include/tap/Argument.hpp), restricted to the fields the occurrence and
validation logic reads: the bounds `m_min`/`m_max` (0 means unbounded),
the `m_required` flag and the dereferenced value of the shared occurrence
counter `*m_count`. Defaults are those of the C++ field initializers. -/
structure Argument where
  min : Nat := 1
  max : Nat := 1
  required : Bool := false
  count : Nat := 0
  deriving DecidableEq, Repr

/-- Mirror of `base_argument::is_set`: the argument occurred at least once. -/
def Argument.is_set (a : Argument) : Bool :=
  a.count > 0

/-- Mirror of `basic_argument::can_set`:
`m_max == 0 || *m_count < m_max`. -/
def Argument.can_set (a : Argument) : Bool :=
  a.max == 0 || a.count < a.max

/-- Mirror of `Argument::check_valid` (include/tap/impl/Argument.hpp lines
25-39): at count 0 a required argument fails demanding 1, otherwise the
count is compared against `m_min` and then against a finite `m_max`. -/
def Argument.check_valid (a : Argument) : Except ArgError Unit :=
  let c := a.count
  if c = 0 then
    if a.required then .error (.countMismatch c 1) else .ok ()
  else if c < a.min then .error (.countMismatch c a.min)
  else if c > a.max ∧ a.max ≠ 0 then .error (.countMismatch c a.max)
  else .ok ()

/-- Mirror of `basic_argument::min(unsigned int)` (include/tap/Argument.hpp
lines 313-322): zero is rejected with a logic error before any mutation;
otherwise `m_min` is assigned and a finite smaller `m_max` is raised. -/
def Argument.setMin (a : Argument) (m : Nat) : Except ArgError Argument :=
  if m = 0 then .error (.logicError "Cannot set zero minimum")
  else
    let a1 := { a with min := m }
    if m > a1.max ∧ a1.max ≠ 0 then .ok { a1 with max := a1.min }
    else .ok a1

/-- Mirror of `basic_argument::max(unsigned int)` (include/tap/Argument.hpp
lines 339-342): an unconditional assignment of `m_max`. -/
def Argument.setMax (a : Argument) (m : Nat) : Argument :=
  { a with max := m }

/-- Mirror of `basic_argument::many(bool)` (include/tap/Argument.hpp lines
293-301): false clamps `m_max` up to at least 1, true makes it unbounded. -/
def Argument.many (a : Argument) (b : Bool) : Argument :=
  if !b then { a with max := Nat.max a.max 1 }
  else { a with max := 0 }

/-- One mutation of the occurrence bounds, used to speak about arbitrary
sequences of `min()`, `max()` and `many()` calls. -/
inductive BoundsOp where
  | opMin (n : Nat)
  | opMax (n : Nat)
  | opMany (b : Bool)
  deriving DecidableEq, Repr

/-- Apply one bounds mutation; a thrown logic error aborts. -/
def Argument.applyOp (a : Argument) : BoundsOp → Except ArgError Argument
  | .opMin n => a.setMin n
  | .opMax n => .ok (a.setMax n)
  | .opMany b => .ok (a.many b)

/-- Apply a sequence of bounds mutations from left to right. -/
def Argument.applyOps (a : Argument) : List BoundsOp → Except ArgError Argument
  | [] => .ok a
  | op :: rest => match a.applyOp op with
    | .error e => .error e
    | .ok a1 => a1.applyOps rest

/-- The occurrence-bounds invariant claimed by the spec:
`min ≤ max` unless `max == 0` (unbounded). -/
def Argument.boundsInv (a : Argument) : Prop :=
  a.min ≤ a.max ∨ a.max = 0

instance (a : Argument) : Decidable a.boundsInv := by
  unfold Argument.boundsInv; infer_instance

end TAP

/-! ## Claim C3 -/

/-- C3: for every declared argument, `check_valid()` returns normally when
`count() == 0` and the argument is not required; raises an
occurrence-mismatch demanding at least one occurrence when `count() == 0`
and the argument is required, regardless of the configured min and max;
raises an occurrence-mismatch naming min when `0 < count() < min`; raises
an occurrence-mismatch naming max when `count() > max`, `max ≠ 0` and the
min bound is met; and returns normally otherwise. -/
theorem tap_C3_check_valid_cases (a : TAP.Argument) :
    (a.count = 0 → a.required = false → a.check_valid = .ok ()) ∧
    (a.count = 0 → a.required = true → a.check_valid = .error (.countMismatch 0 1)) ∧
    (0 < a.count → a.count < a.min → a.check_valid = .error (.countMismatch a.count a.min)) ∧
    (0 < a.count → a.min ≤ a.count → a.max < a.count → a.max ≠ 0 →
      a.check_valid = .error (.countMismatch a.count a.max)) ∧
    (0 < a.count → a.min ≤ a.count → (a.count ≤ a.max ∨ a.max = 0) →
      a.check_valid = .ok ()) := by
  refine ⟨?_, ?_, ?_, ?_, ?_⟩
  · intro h1 h2
    simp [TAP.Argument.check_valid, h1, h2]
  · intro h1 h2
    simp [TAP.Argument.check_valid, h1, h2]
  · intro h1 h2
    have h0 : ¬ (a.count = 0) := by omega
    simp [TAP.Argument.check_valid, h0, h2]
  · intro h1 h2 h3 h4
    have h0 : ¬ (a.count = 0) := by omega
    have h5 : ¬ (a.count < a.min) := by omega
    have h6 : a.count > a.max ∧ a.max ≠ 0 := by omega
    simp [TAP.Argument.check_valid, h0, h5, h6]
  · intro h1 h2 h3
    have h0 : ¬ (a.count = 0) := by omega
    have h5 : ¬ (a.count < a.min) := by omega
    have h6 : ¬ (a.count > a.max ∧ a.max ≠ 0) := by omega
    simp [TAP.Argument.check_valid, h0, h5, h6]

/-- Witness for C3: a concrete required argument with count 0 hits the
"requires at least one" branch. -/
theorem tap_C3_check_valid_cases_witness :
    ({ required := true, min := 3, max := 5 : TAP.Argument }).check_valid
      = .error (.countMismatch 0 1) :=
  (tap_C3_check_valid_cases { required := true, min := 3, max := 5 }).2.1
    (by decide) (by decide)

/-! ## Claim C7 -/

/-- C7 counterexample: the claim asserts that after any sequence of
`min()`, `max()` and `many()` mutations the invariant `min ≤ max` holds
unless `max == 0`; but starting from the default bounds, `min(5)` followed
by `max(2)` leaves `min = 5 > max = 2` with `max ≠ 0`, because `max()`
assigns unconditionally and never re-raises or checks `min`. -/
theorem tap_C7_bounds_counterexample :
    ({} : TAP.Argument).applyOps [.opMin 5, .opMax 2]
        = .ok { min := 5, max := 2 } ∧
    ¬ ({ min := 5, max := 2 : TAP.Argument }).boundsInv := by
  refine ⟨rfl, ?_⟩
  decide

/-- C7 as amended: `min(0)` raises a logic error (the exception is thrown
before any field is assigned, so the bounds are unchanged); `min(n)` with
`n` above the current finite `max` raises `max` to `n`; every successful
`min()` call establishes the invariant `min ≤ max ∨ max = 0`; but the
invariant is not maintained by arbitrary sequences: `max(n)` with
`0 < n < min` leaves `min > max` with `max` finite. -/
theorem tap_C7_bounds_amended (a : TAP.Argument) (n : Nat) :
    (a.setMin 0 = .error (.logicError "Cannot set zero minimum")) ∧
    (n ≠ 0 → a.max < n → a.max ≠ 0 →
      a.setMin n = .ok { a with min := n, max := n }) ∧
    (∀ a1, a.setMin n = .ok a1 → a1.boundsInv) ∧
    (0 < n → n < a.min → ¬ (a.setMax n).boundsInv) := by
  refine ⟨?_, ?_, ?_, ?_⟩
  · simp [TAP.Argument.setMin]
  · intro hn hlt hmax
    have hgt : n > a.max ∧ a.max ≠ 0 := ⟨hlt, hmax⟩
    simp [TAP.Argument.setMin, hn, hgt]
  · intro a1 h
    unfold TAP.Argument.setMin at h
    by_cases hn : n = 0
    · simp [hn] at h
    · rw [if_neg hn] at h
      by_cases hc : n > a.max ∧ a.max ≠ 0
      · rw [if_pos hc] at h
        cases h
        simp [TAP.Argument.boundsInv]
      · rw [if_neg hc] at h
        cases h
        simp only [TAP.Argument.boundsInv]
        omega
  · intro hn hlt
    simp only [TAP.Argument.setMax, TAP.Argument.boundsInv]
    omega

/-- Witness for C7 amended: the concrete counterexample state, obtained by
applying the amended theorem at `min = 5`, `max = 2`. -/
theorem tap_C7_bounds_amended_witness :
    ¬ (({ min := 5, max := 3 : TAP.Argument }).setMax 2).boundsInv :=
  (tap_C7_bounds_amended { min := 5, max := 3 } 2).2.2.2 (by decide) (by decide)

/-! ## Value decoding (impl/TypedArgument.hpp)

The library decodes a token through `std::basic_istringstream` extraction
(`iss >> storage`). For `int` storage the extraction skips leading
whitespace, accepts an optional sign followed by decimal digits, and — per
C++11 `std::num_get` — writes 0 to the destination when extraction fails.
`detail::setValue` then also fails when characters remain after a
successful extraction (`iss.peek() != eof`), leaving the already-written
value in place. When `TAP_STREAMSAFE` is defined the extraction targets a
local copy that is committed only on success; the shipped Tap.h leaves
that definition commented out, so the direct-write variant is the default
configuration. -/

namespace TAP

/-- Numeric value of a run of decimal digits. -/
def digitsToNat (ds : List Char) : Nat :=
  ds.foldl (fun n c => 10 * n + (c.toNat - 48)) 0

/-- Mirror of `istream >> int`: skip whitespace, optional sign, a
non-empty digit run; returns the value and the unconsumed characters,
or none when extraction fails. -/
def extractInt (s : List Char) : Option (Int × List Char) :=
  let s1 := s.dropWhile (fun c => c = ' ' ∨ c = '\t' ∨ c = '\n')
  match s1 with
  | '-' :: rest =>
    let ds := rest.takeWhile Char.isDigit
    if ds.isEmpty then none
    else some (-(digitsToNat ds : Int), rest.dropWhile Char.isDigit)
  | '+' :: rest =>
    let ds := rest.takeWhile Char.isDigit
    if ds.isEmpty then none
    else some ((digitsToNat ds : Int), rest.dropWhile Char.isDigit)
  | _ =>
    let ds := s1.takeWhile Char.isDigit
    if ds.isEmpty then none
    else some ((digitsToNat ds : Int), s1.dropWhile Char.isDigit)

/-- Mirror of `detail::setValue` (impl/TypedArgument.hpp lines 38-54) for
`int` storage in the DEFAULT configuration (`TAP_STREAMSAFE` undefined):
`iss >> storage` writes straight into the storage cell, so a failed
extraction zeroes it and a trailing-garbage failure leaves the partially
decoded number in it. Returns (success, new storage value). -/
def setValueInt (value : String) (storage : Int) : Bool × Int :=
  match extractInt value.data with
  | none => (false, 0)
  | some (n, rest) => (rest.isEmpty, n)

/-- Mirror of `detail::setValue` for `int` when `TAP_STREAMSAFE` is
defined: extraction goes into a local copy, committed only on success. -/
def setValueIntSafe (value : String) (storage : Int) : Bool × Int :=
  match extractInt value.data with
  | none => (false, storage)
  | some (n, rest) => if rest.isEmpty then (true, n) else (false, storage)

/-- A `VariableArgument<int>` / `ValueArgument<int>`: the base argument
state plus the pointed-to storage cell (no check callbacks installed). -/
structure VariableArgumentInt where
  arg : Argument := {}
  storage : Int := 0
  deriving DecidableEq, Repr

/-- Mirror of `basic_variable_argument::set(value)` (impl/TypedArgument.hpp
lines 108-118) in the default configuration: decode via
`detail::setValue` into the storage cell; on failure raise
`argument_invalid_value(*this, value)` — the storage keeps whatever the
extraction wrote; on success run check() (no callback here) and then
`basic_argument::set()`, which increments the occurrence counter. -/
def VariableArgumentInt.setStr (a : VariableArgumentInt) (value : String) :
    VariableArgumentInt × Option ArgError :=
  let r := setValueInt value a.storage
  let a1 := { a with storage := r.2 }
  if r.1 then
    ({ a1 with arg := { a1.arg with count := a1.arg.count + 1 } }, none)
  else (a1, some (.invalidValue value))

/-- The same member compiled with `TAP_STREAMSAFE` defined. -/
def VariableArgumentInt.setStrSafe (a : VariableArgumentInt) (value : String) :
    VariableArgumentInt × Option ArgError :=
  let r := setValueIntSafe value a.storage
  let a1 := { a with storage := r.2 }
  if r.1 then
    ({ a1 with arg := { a1.arg with count := a1.arg.count + 1 } }, none)
  else (a1, some (.invalidValue value))

end TAP

/-! ## Claim C1 -/

/-- C1 counterexample: the claim asserts that a failed decode always
leaves the stored value unchanged (a `ValueArgument<int>` holding 7 still
holds 7 after `set("notanumber")` fails). In the default configuration
(`TAP_STREAMSAFE` is commented out in Tap.h) the extraction writes
directly into the storage cell, and a failed `int` extraction zeroes it:
after `set("notanumber")` the invalid-value error is raised but the
stored value is 0, not 7. The repository's own test asserts exactly this
(`assert(arg1.value() == 0)` in the non-STREAMSAFE branch). -/
theorem tap_C1_transactional_counterexample :
    (({ storage := 7 } : TAP.VariableArgumentInt).setStr "notanumber").2
        = some (.invalidValue "notanumber") ∧
    (({ storage := 7 } : TAP.VariableArgumentInt).setStr "notanumber").1.storage = 0 := by
  constructor <;> rfl

/-- C1 as amended: a failed decode always raises the invalid-value error
naming the offending token, and the decode commits through a scratch
value only when `TAP_STREAMSAFE` is enabled — in that configuration the
stored value and the occurrence count are untouched by any failing
`set(token)` (while the default configuration writes through, as the
counterexample shows). On success both configurations commit the decoded
value and increment the counter: `set("7")` on a `ValueArgument<int>`
holding 5 yields value 7. -/
theorem tap_C1_transactional_amended (a : TAP.VariableArgumentInt) (v : String) :
    ((TAP.setValueIntSafe v a.storage).1 = false →
      a.setStrSafe v = (a, some (.invalidValue v))) ∧
    ((TAP.setValueInt v a.storage).1 = false →
      (a.setStr v).2 = some (.invalidValue v)) ∧
    (({ storage := 5 } : TAP.VariableArgumentInt).setStr "7"
        = ({ storage := 7, arg := { count := 1 } }, none)) := by
  refine ⟨?_, ?_, ?_⟩
  · intro h
    have hst : (TAP.setValueIntSafe v a.storage).2 = a.storage := by
      unfold TAP.setValueIntSafe at h ⊢
      cases hx : TAP.extractInt v.data with
      | none => rfl
      | some p =>
        rw [hx] at h
        by_cases he : p.2.isEmpty
        · simp [he] at h
        · simp [he]
    simp only [TAP.VariableArgumentInt.setStrSafe, h, hst]
    simp
  · intro h
    simp only [TAP.VariableArgumentInt.setStr, h]
    simp
  · rfl

/-- Witness for C1 amended: the STREAMSAFE build leaves a stored 7 intact
when decoding "notanumber" fails. -/
theorem tap_C1_transactional_amended_witness :
    ({ storage := 7 } : TAP.VariableArgumentInt).setStrSafe "notanumber"
      = ({ storage := 7 }, some (.invalidValue "notanumber")) :=
  (tap_C1_transactional_amended { storage := 7 } "notanumber").1 (by rfl)

/-! ## Claim C10: typed check callback dispatch

`basic_variable_argument::set(value)` first calls
`typed_argument::check()` explicitly (which runs the installed
`m_typedCheckFunc` through `doCheck`), then calls
`basic_argument::set()`; that base member increments the shared counter
and calls the virtual `check()`, which dynamically dispatches back to the
`typed_argument` override — running the typed callback a second time. The
model logs each callback invocation as the pair
(storage value seen, counter value seen). -/

namespace TAP

/-- A `VariableArgument<int>` with a typed check callback installed via
`check_typed`; the callback is modelled as an observer appending
(`*m_storage`, `*m_count`) to a log each time it runs. -/
structure VariableArgumentIntChk where
  storage : Int := 0
  count : Nat := 0
  log : List (Int × Nat) := []
  deriving DecidableEq, Repr

/-- Mirror of `typed_argument::check` / `doCheck` (scalar case): runs
`m_typedCheckFunc(*this, *m_storage)`, here logged with the current
counter value. -/
def VariableArgumentIntChk.doCheck (a : VariableArgumentIntChk) :
    VariableArgumentIntChk :=
  { a with log := a.log ++ [(a.storage, a.count)] }

/-- Mirror of `basic_argument::set()` as executed on a variable argument:
`(*m_count)++` followed by the virtual `check()`, which dispatches to the
`typed_argument` override. -/
def VariableArgumentIntChk.baseSet (a : VariableArgumentIntChk) :
    VariableArgumentIntChk :=
  ({ a with count := a.count + 1 }).doCheck

/-- Mirror of `basic_variable_argument::set(value)`
(impl/TypedArgument.hpp lines 108-118) with a typed check installed:
decode, raise invalid-value on failure, otherwise run `check()` and then
`basic_argument::set()`. -/
def VariableArgumentIntChk.setStr (a : VariableArgumentIntChk)
    (value : String) : VariableArgumentIntChk × Option ArgError :=
  let r := setValueInt value a.storage
  let a1 := { a with storage := r.2 }
  if r.1 then (a1.doCheck.baseSet, none)
  else (a1, some (.invalidValue value))

end TAP

/-- C10: one successful `set(token)` on a variable argument with a typed
check callback invokes the callback exactly twice — once right after the
decoded value is committed (the counter still holds its old value) and a
second time from `basic_argument::set()` after the counter has been
incremented, because the base `set()` re-dispatches to the overridden
`check()`. -/
theorem tap_C10_typed_check_runs_twice (a : TAP.VariableArgumentIntChk)
    (v : String) (h : (TAP.setValueInt v a.storage).1 = true) :
    (a.setStr v).2 = none ∧
    (a.setStr v).1.log = a.log ++
      [((TAP.setValueInt v a.storage).2, a.count),
       ((TAP.setValueInt v a.storage).2, a.count + 1)] := by
  simp only [TAP.VariableArgumentIntChk.setStr, h]
  simp [TAP.VariableArgumentIntChk.doCheck, TAP.VariableArgumentIntChk.baseSet]

/-- Witness for C10: decoding "7" into a fresh argument logs two callback
invocations, at counter values 0 and 1. -/
theorem tap_C10_typed_check_runs_twice_witness :
    (({} : TAP.VariableArgumentIntChk).setStr "7").2 = none ∧
    (({} : TAP.VariableArgumentIntChk).setStr "7").1.log
      = [] ++ [((TAP.setValueInt "7" 0).2, 0), ((TAP.setValueInt "7" 0).2, 1)] :=
  tap_C10_typed_check_runs_twice {} "7" (by rfl)

/-! ## Parser engine (impl/Parser.hpp)

The parser walks the token stream once. Configuration is the default one
from Tap.h: short-option prefix "-" (`flagStart`), long-option prefix
"--" (`nameStart`), name/value delimiter '=' (`nameDelim`), end-of-options
marker "--" (`skip`). Arguments are modelled as one flat list in
declaration order across all argument sets — `findArg` iterates the sets
in order and each set's arguments in order, which is exactly a walk of
that flattened list. A value argument stores each committed token; the
string decode of a command-line word always succeeds, which matches
`detail::setValue` into string storage for the delimiter-free tokens the
claims exercise. -/

namespace TAP

/-- One declared argument as the parser sees it: alias sets, positional
flag, the value-taking capability (`takes_value()`), the occurrence
bounds/counter, and the committed value tokens. -/
structure ParseArg where
  flags : List Char := []
  names : List String := []
  isPositional : Bool := false
  takesValue : Bool := false
  max : Nat := 1
  count : Nat := 0
  values : List String := []
  deriving DecidableEq, Repr

/-- Mirror of `basic_argument::can_set`. -/
def ParseArg.can_set (a : ParseArg) : Bool :=
  a.max == 0 || a.count < a.max

/-- Mirror of `basic_argument::matches()`: positional match. -/
def ParseArg.matchesPos (a : ParseArg) : Bool :=
  a.isPositional

/-- Mirror of `basic_argument::matches(flag)`. -/
def ParseArg.matchesFlag (a : ParseArg) (c : Char) : Bool :=
  a.flags.contains c

/-- Mirror of `basic_argument::matches(name)`. -/
def ParseArg.matchesName (a : ParseArg) (n : String) : Bool :=
  a.names.contains n

/-- Mirror of `basic_argument::set()`: bump the occurrence counter. -/
def ParseArg.setPlain (a : ParseArg) : ParseArg :=
  { a with count := a.count + 1 }

/-- Mirror of `basic_variable_argument::set(value)` for the string-storage
arguments the parser claims exercise: commit the token, bump the
counter. -/
def ParseArg.setValue (a : ParseArg) (v : String) : ParseArg :=
  { a with values := a.values ++ [v], count := a.count + 1 }

/-- Replace the argument at an index (the parser mutates the resolved
argument in place through its pointer). -/
def modifyIdx (f : ParseArg → ParseArg) : Nat → List ParseArg → List ParseArg
  | _, [] => []
  | 0, a :: rest => f a :: rest
  | n + 1, a :: rest => a :: modifyIdx f n rest

/-- Read the argument at an index. -/
def getArg (args : List ParseArg) (i : Nat) : ParseArg :=
  args.getD i {}

/-- Mirror of the token classification test
`arg.compare(0, strlen(pre), pre) == 0`: the token begins with the given
characters. -/
def hasPre (pre : List Char) (s : List Char) : Bool :=
  match pre, s with
  | [], _ => true
  | _ :: _, [] => false
  | p :: ps, c :: cs => p == c && hasPre ps cs

/-- Errors raised by the parse loop (Exceptions.hpp). The argument-borne
errors carry the index of the resolved argument. -/
inductive ParseError where
  | unknownArg (ident : String)
  | missingValue (idx : Nat)
  | noValue (idx : Nat)
  | logicError
  deriving DecidableEq, Repr

/-- Mirror of `basic_argument_parser::findArg` (impl/Parser.hpp lines
124-154), iterating the flattened declaration-order list with a running
index: remember every match, return the first one that can still be set,
otherwise the last match remembered. -/
def findArgFrom (p : ParseArg → Bool) : Nat → List ParseArg → Option Nat → Option Nat
  | _, [], acc => acc
  | i, a :: rest, acc =>
    if p a then
      if a.can_set then some i else findArgFrom p (i + 1) rest (some i)
    else findArgFrom p (i + 1) rest acc

/-- Entry point of the resolution loop. -/
def findArg (args : List ParseArg) (p : ParseArg → Bool) : Option Nat :=
  findArgFrom p 0 args none

/-- Transcribed from the spec claim: the earliest declared argument that
matches and can still accept an occurrence. -/
def firstSettableFrom (p : ParseArg → Bool) : Nat → List ParseArg → Option Nat
  | _, [] => none
  | i, a :: rest =>
    if p a ∧ a.can_set then some i else firstSettableFrom p (i + 1) rest

/-- Transcribed from the spec claim: the last declared argument that
matches. -/
def lastMatchFrom (p : ParseArg → Bool) : Nat → List ParseArg → Option Nat
  | _, [] => none
  | i, a :: rest =>
    match lastMatchFrom p (i + 1) rest with
    | some j => some j
    | none => if p a then some i else none

/-- Transcribed from the spec claim: resolution prefers the earliest
declared argument still able to accept another occurrence and only falls
back to the last matching argument when every matching candidate is
exhausted; none means unknown-argument. -/
def resolveSpec (args : List ParseArg) (p : ParseArg → Bool) : Option Nat :=
  match firstSettableFrom p 0 args with
  | some i => some i
  | none => lastMatchFrom p 0 args

/-- Mirror of `basic_argument_parser::set_arg_value` (impl/Parser.hpp
lines 272-282): a logic error on a non-value argument, otherwise the
value-acceptor `set(value)`. -/
def set_arg_value (args : List ParseArg) (i : Nat) (v : String) :
    Except ParseError (List ParseArg) :=
  if (getArg args i).takesValue then
    .ok (modifyIdx (fun a => a.setValue v) i args)
  else .error .logicError

/-- Mirror of the flag-cluster scan (impl/Parser.hpp lines 208-224): each
character resolves as a flag; an unknown flag raises unknown-argument; a
value-taking argument terminates the scan, returning its index and the
characters left in the token; a non-value argument is `set()` and the
scan continues. -/
def scanFlags (args : List ParseArg) (chars : List Char) :
    Except ParseError (List ParseArg × Option (Nat × List Char)) :=
  match chars with
  | [] => .ok (args, none)
  | c :: cs =>
    match findArg args (fun a => a.matchesFlag c) with
    | none => .error (.unknownArg (String.mk [c]))
    | some i =>
      if (getArg args i).takesValue then .ok (args, some (i, cs))
      else scanFlags (modifyIdx ParseArg.setPlain i args) cs
termination_by structural chars

/-- Mirror of the named-token split (impl/Parser.hpp lines 170-179):
`arg.find(nameDelim)` searches the whole token; a hit away from position
zero splits into name and inline value, otherwise the whole remainder
after the "--" prefix is the name. -/
def splitNamed (tok : String) : String × Option String :=
  match tok.data.findIdx? (fun c => c = '=') with
  | some p =>
    if p ≠ 0 then
      (String.mk ((tok.data.drop 2).take (p - 2)),
       some (String.mk (tok.data.drop (p + 1))))
    else (String.mk (tok.data.drop 2), none)
  | none => (String.mk (tok.data.drop 2), none)

/-- The positional-token branch of the parse loop (impl/Parser.hpp lines
241-259): resolve among positional matches, raise unknown-argument when
there is none, assign the current token as the value of a value-taking
argument, or `set()` a valueless one. -/
def posStep (args : List ParseArg) (tok : String) :
    Except ParseError (List ParseArg) :=
  match findArg args (fun a => a.matchesPos) with
  | none => .error (.unknownArg "")
  | some i =>
    if (getArg args i).takesValue then set_arg_value args i tok
    else .ok (modifyIdx ParseArg.setPlain i args)

/-- Mirror of `basic_argument_parser::parse` (impl/Parser.hpp lines
157-261), the token-classification loop (the post-parse `check_valid`
walk is separate and not part of these claims). `noParse` is the flag set
by the skip marker. The source consumes "the next whole token" as the
value of a value-taking argument by advancing the iterator (`++it`);
here that is encoded by the `pending` state: when it carries the index of
a value-taking argument, the next token is handed to it unclassified, and
an exhausted stream with a pending argument is the missing-value error. -/
def parseLoop (args : List ParseArg) (noParse : Bool) (pending : Option Nat)
    (argv : List String) : Except ParseError (List ParseArg) :=
  match argv with
  | [] =>
    match pending with
    | some i => .error (.missingValue i)
    | none => .ok args
  | tok :: rest =>
    match pending with
    | some i =>
      match set_arg_value args i tok with
      | .error e => .error e
      | .ok args1 => parseLoop args1 noParse none rest
    | none =>
      if tok = "--" then
        parseLoop args true none rest
      else if ¬ noParse ∧ hasPre ['-', '-'] tok.data then
        let s := splitNamed tok
        match findArg args (fun a => a.matchesName s.1) with
        | none => .error (.unknownArg s.1)
        | some i =>
          if (getArg args i).takesValue then
            match s.2 with
            | some v =>
              match set_arg_value args i v with
              | .error e => .error e
              | .ok args1 => parseLoop args1 noParse none rest
            | none => parseLoop args noParse (some i) rest
          else
            match s.2 with
            | some _ => .error (.noValue i)
            | none => parseLoop (modifyIdx ParseArg.setPlain i args) noParse none rest
      else if ¬ noParse ∧ hasPre ['-'] tok.data ∧ tok ≠ "-" then
        match scanFlags args (tok.data.drop 1) with
        | .error e => .error e
        | .ok (args1, none) => parseLoop args1 noParse none rest
        | .ok (args1, some (i, remChars)) =>
          if remChars ≠ [] then
            match set_arg_value args1 i (String.mk remChars) with
            | .error e => .error e
            | .ok args2 => parseLoop args2 noParse none rest
          else parseLoop args1 noParse (some i) rest
      else
        match posStep args tok with
        | .error e => .error e
        | .ok args1 => parseLoop args1 noParse none rest
termination_by structural argv

/-- Entry point: parsing starts with classification enabled and no
pending value argument. -/
def parseTokens (args : List ParseArg) (argv : List String) :
    Except ParseError (List ParseArg) :=
  parseLoop args false none argv

end TAP

/-- Decidable equality for `Except`, used to evaluate parse results on
concrete inputs. -/
instance {ε α : Type} [DecidableEq ε] [DecidableEq α] :
    DecidableEq (Except ε α) := fun a b =>
  match a, b with
  | .error e1, .error e2 =>
    if h : e1 = e2 then .isTrue (by rw [h])
    else .isFalse (fun hh => by cases hh; exact h rfl)
  | .ok v1, .ok v2 =>
    if h : v1 = v2 then .isTrue (by rw [h])
    else .isFalse (fun hh => by cases hh; exact h rfl)
  | .error _, .ok _ => .isFalse (fun hh => by cases hh)
  | .ok _, .error _ => .isFalse (fun hh => by cases hh)

namespace TAP

/-- A positional, unbounded value argument (a positional
`ValueArgument` with `many()`), used by the concrete parse examples. -/
def posArg : ParseArg := { isPositional := true, takesValue := true, max := 0 }

/-- No-value flag argument `-a`. -/
def flagA : ParseArg := { flags := ['a'] }

/-- No-value flag argument `-b`. -/
def flagB : ParseArg := { flags := ['b'] }

/-- No-value flag argument `-c`. -/
def flagC : ParseArg := { flags := ['c'] }

/-- Value-taking flag argument `-c`. -/
def flagCValue : ParseArg := { flags := ['c'], takesValue := true }

end TAP

/-- The resolution loop equals its specification: first settable match,
else last match, else the accumulator carried in from earlier sets. -/
theorem findArgFrom_eq_spec (p : TAP.ParseArg → Bool) (l : List TAP.ParseArg) :
    ∀ (i : Nat) (acc : Option Nat),
      TAP.findArgFrom p i l acc =
        match TAP.firstSettableFrom p i l with
        | some j => some j
        | none =>
          match TAP.lastMatchFrom p i l with
          | some j => some j
          | none => acc := by
  induction l with
  | nil => intro i acc; rfl
  | cons a rest ih =>
    intro i acc
    by_cases hp : p a = true
    · by_cases hs : a.can_set = true
      · simp [TAP.findArgFrom, TAP.firstSettableFrom, hp, hs]
      · simp only [TAP.findArgFrom, TAP.firstSettableFrom, TAP.lastMatchFrom, hp, hs,
          if_true, Bool.false_eq_true, and_false, if_false, ite_false]
        rw [ih]
        cases h1 : TAP.firstSettableFrom p (i + 1) rest <;>
          cases h2 : TAP.lastMatchFrom p (i + 1) rest <;>
            simp [hp, hs]
    · simp only [TAP.findArgFrom, TAP.firstSettableFrom, TAP.lastMatchFrom, hp,
        Bool.false_eq_true, false_and, if_false, ite_false]
      rw [ih]
      cases h1 : TAP.firstSettableFrom p (i + 1) rest <;>
        cases h2 : TAP.lastMatchFrom p (i + 1) rest <;>
          simp [hp]

/-! ## Claim C2 -/

/-- C2: every lookup of a flag, name or positional token resolves to the
earliest declared argument (in declaration order across all sets) that
matches and can still accept an occurrence; if every matching argument is
exhausted it falls back to the last matching one; with no match at all
the parser raises unknown-argument. In particular two unbounded
positional value arguments declared `p1, p2` absorb `["x","y","z"]`
entirely into `p1`, leaving `p2` unset, and a positional token with no
declared positional argument raises unknown-argument. -/
theorem tap_C2_resolution_order :
    (∀ (args : List TAP.ParseArg) (p : TAP.ParseArg → Bool),
      TAP.findArg args p = TAP.resolveSpec args p) ∧
    TAP.parseTokens [TAP.posArg, TAP.posArg] ["x", "y", "z"]
      = .ok [{ TAP.posArg with count := 3, values := ["x", "y", "z"] }, TAP.posArg] ∧
    TAP.parseTokens [TAP.flagA] ["x"] = .error (.unknownArg "") := by
  refine ⟨?_, by decide, by decide⟩
  intro args p
  unfold TAP.findArg TAP.resolveSpec
  rw [findArgFrom_eq_spec]
  cases h1 : TAP.firstSettableFrom p 0 args <;>
    cases h2 : TAP.lastMatchFrom p 0 args <;> simp

/-! ## Claim C4 -/

/-- C4: scanning a flag-cluster token resolves each character as a flag;
a resolved no-value argument is `set()` and the scan continues in the
same token; the first value-taking argument ends the scan, taking the
remaining characters of the token as its inline value when any remain,
else the next whole token, with missing-value raised when the stream is
exhausted; an unresolved character raises unknown-argument. Concretely,
`["-abc"]` with no-value flags a, b, c sets each once; `["-bcVALUE"]`
with no-value `b` and value-taking `c` sets `b` once and gives `c` the
value "VALUE"; and `["-c"]` with value-taking `c` and no further token
raises missing-value. -/
theorem tap_C4_flag_cluster :
    (∀ (args : List TAP.ParseArg) (c : Char) (cs : List Char) (i : Nat),
      TAP.findArg args (fun a => a.matchesFlag c) = some i →
        ((TAP.getArg args i).takesValue = false →
          TAP.scanFlags args (c :: cs)
            = TAP.scanFlags (TAP.modifyIdx TAP.ParseArg.setPlain i args) cs) ∧
        ((TAP.getArg args i).takesValue = true →
          TAP.scanFlags args (c :: cs) = .ok (args, some (i, cs)))) ∧
    (∀ (args : List TAP.ParseArg) (c : Char) (cs : List Char),
      TAP.findArg args (fun a => a.matchesFlag c) = none →
        TAP.scanFlags args (c :: cs) = .error (.unknownArg (String.mk [c]))) ∧
    TAP.parseTokens [TAP.flagA, TAP.flagB, TAP.flagC] ["-abc"]
      = .ok [{ TAP.flagA with count := 1 }, { TAP.flagB with count := 1 },
             { TAP.flagC with count := 1 }] ∧
    TAP.parseTokens [TAP.flagB, TAP.flagCValue] ["-bcVALUE"]
      = .ok [{ TAP.flagB with count := 1 },
             { TAP.flagCValue with count := 1, values := ["VALUE"] }] ∧
    TAP.parseTokens [TAP.flagCValue] ["-c"] = .error (.missingValue 0) := by
  refine ⟨?_, ?_, by decide, by decide, by decide⟩
  · intro args c cs i h
    constructor
    · intro hv
      simp [TAP.scanFlags, h, hv]
    · intro hv
      simp [TAP.scanFlags, h, hv]
  · intro args c cs h
    simp [TAP.scanFlags, h]

/-- Witness for C4: in the cluster "-cX" over `b` (no value) and a
value-taking `c`, the scan of 'c' terminates with the value argument and
the leftover characters. -/
theorem tap_C4_flag_cluster_witness :
    TAP.scanFlags [TAP.flagB, TAP.flagCValue] ['c', 'X']
      = .ok ([TAP.flagB, TAP.flagCValue], some (1, ['X'])) :=
  (tap_C4_flag_cluster.1 [TAP.flagB, TAP.flagCValue] 'c' ['X'] 1 (by decide)).2
    (by decide)

/-! ## Claim C8 -/

/-- C8 counterexample: the claim asserts that after the skip marker every
remaining token is treated as a positional argument regardless of its
prefix. But the marker test `if (arg == skip)` is not guarded by the
no-parse flag, so a later token equal to "--" is consumed as another
marker instead of being handed to a positional argument: parsing
`["--", "--"]` with one unbounded positional value argument declared
leaves it unset (count 0, no value), where the claim requires it to
receive the literal string "--". -/
theorem tap_C8_skip_counterexample :
    TAP.parseTokens [TAP.posArg] ["--", "--"] = .ok [TAP.posArg] ∧
    TAP.posArg.count = 0 ∧ TAP.posArg.values = [] := by
  refine ⟨by decide, rfl, rfl⟩

/-- C8 as amended: the skip marker itself is always consumed without
being matched to any argument (and switches parsing into no-parse mode);
after it, every remaining token other than further occurrences of the
skip token "--" — which are again swallowed as markers — is treated as a
positional argument regardless of its prefix. In particular, with
no-value flag `a` and positional value argument `p`, parsing
`["-a", "--", "-a"]` leaves `a` with count 1 and assigns `p` the literal
string "-a". -/
theorem tap_C8_skip_amended :
    (∀ (args : List TAP.ParseArg) (noParse : Bool) (rest : List String),
      TAP.parseLoop args noParse none ("--" :: rest)
        = TAP.parseLoop args true none rest) ∧
    (∀ (args : List TAP.ParseArg) (tok : String) (rest : List String),
      tok ≠ "--" →
        TAP.parseLoop args true none (tok :: rest)
          = match TAP.posStep args tok with
            | .error e => .error e
            | .ok args1 => TAP.parseLoop args1 true none rest) ∧
    TAP.parseTokens [TAP.flagA, TAP.posArg] ["-a", "--", "-a"]
      = .ok [{ TAP.flagA with count := 1 },
             { TAP.posArg with count := 1, values := ["-a"] }] := by
  refine ⟨?_, ?_, by decide⟩
  · intro args noParse rest
    rfl
  · intro args tok rest h
    conv_lhs => rw [TAP.parseLoop.eq_def]
    dsimp only
    rw [if_neg h, if_neg (by simp), if_neg (by simp)]

/-- Witness for C8 amended: in no-parse mode the flag-like token "-a" is
fed to the positional branch. -/
theorem tap_C8_skip_amended_witness :
    TAP.parseLoop [TAP.posArg] true none ["-a"]
      = match TAP.posStep [TAP.posArg] "-a" with
        | .error e => .error e
        | .ok args1 => TAP.parseLoop args1 true none [] :=
  tap_C8_skip_amended.2.1 [TAP.posArg] "-a" [] (by decide)

/-! ## Exactly-one constraint (impl/ArgumentConstraint.hpp) -/

namespace TAP

/-- Errors raised during constraint validation: either an error thrown by
a child argument's own `check_valid`, or a `constraint_error` carrying the
offending children (`detail::CheckValid<One>` copies every child into the
error's argument list). -/
inductive CheckError where
  | argError (e : ArgError)
  | constraintError (offenders : List Argument)
  deriving DecidableEq, Repr

/-- The counting loop of
`detail::CheckValid<char_t, constraint_type::One>::check_valid`
(impl/ArgumentConstraint.hpp lines 112-130): walk the children, validate
each set child (propagating its exception) and count the set ones. -/
def countSetValidating : List Argument → Except CheckError Nat
  | [] => .ok 0
  | a :: rest =>
    if a.is_set then
      match a.check_valid with
      | .error e => .error (.argError e)
      | .ok _ =>
        match countSetValidating rest with
        | .error e => .error e
        | .ok n => .ok (n + 1)
    else countSetValidating rest

/-- Mirror of the exactly-one check: after the counting walk, any count
other than one raises a constraint error listing all children. -/
def checkValidOne (children : List Argument) : Except CheckError Unit :=
  match countSetValidating children with
  | .error e => .error e
  | .ok counter =>
    if counter ≠ 1 then .error (.constraintError children) else .ok ()

end TAP

/-! ## Claim C5 -/

/-- C5: for an exactly-one constraint node over two children whose own
validation succeeds whenever they are set, `check_valid()` returns
normally exactly when one of the two children is set, and raises a
constraint error listing both children whenever the number of set
children differs from one (neither set, or both set). -/
theorem tap_C5_exactly_one (l r : TAP.Argument)
    (hl : l.is_set = true → l.check_valid = .ok ())
    (hr : r.is_set = true → r.check_valid = .ok ()) :
    (TAP.checkValidOne [l, r] = .ok () ↔
      ((if l.is_set then 1 else 0) + (if r.is_set then 1 else 0) = 1)) ∧
    (((if l.is_set then 1 else 0) + (if r.is_set then 1 else 0)) ≠ 1 →
      TAP.checkValidOne [l, r] = .error (.constraintError [l, r])) := by
  by_cases h1 : l.is_set = true
  · by_cases h2 : r.is_set = true
    · simp [TAP.checkValidOne, TAP.countSetValidating, h1, h2, hl h1, hr h2]
    · simp [TAP.checkValidOne, TAP.countSetValidating, h1, h2, hl h1]
  · by_cases h2 : r.is_set = true
    · simp [TAP.checkValidOne, TAP.countSetValidating, h1, h2, hr h2]
    · simp [TAP.checkValidOne, TAP.countSetValidating, h1, h2]

/-- Witness for C5: one default argument set once next to one unset
argument passes the exactly-one check. -/
theorem tap_C5_exactly_one_witness :
    TAP.checkValidOne [{ count := 1 }, {}] = .ok () :=
  (tap_C5_exactly_one { count := 1 } {} (fun _ => by decide)
    (fun h => by simp [TAP.Argument.is_set] at h)).1.mpr (by decide)

/-! ## Argument sets (tap/Parser.hpp) -/

namespace TAP

/-- A node of the clone-based ownership tree under an argument set or
constraint: a leaf is a cloned declared argument, identified here by the
id of the shared occurrence-counter cell all its clones point at (two
clones of the same declared argument carry the same cell id, two distinct
declared arguments never do); an inner node owns its cloned children. -/
inductive BaseNode where
  | leaf (cell : Nat)
  | node (children : List BaseNode)

mutual

/-- Mirror of `find_all_arguments`: a leaf pushes itself onto the
collector (tap/Argument.hpp lines 276-278), an inner node recurses over
its children (tap/Parser.hpp lines 560-564). No filtering happens. -/
def find_all_arguments : BaseNode → List Nat
  | .leaf c => [c]
  | .node cs => findAllList cs

/-- Collect over a child list in order. -/
def findAllList : List BaseNode → List Nat
  | [] => []
  | n :: rest => find_all_arguments n ++ findAllList rest

end

/-- Mirror of `basic_argument_set` state (tap/Parser.hpp lines 647-657):
the owned children, the cached flat list `m_args`, and the
`m_updateArgs` flag, initialized to true. -/
structure ArgumentSetM where
  children : List BaseNode
  m_args : List Nat := []
  m_updateArgs : Bool := true

/-- Mirror of `basic_argument_set::args` (tap/Parser.hpp lines 707-713):
when the flag is set, clear and refill the cache; return it. The source
never clears `m_updateArgs`. -/
def ArgumentSetM.argsFn (s : ArgumentSetM) : List Nat × ArgumentSetM :=
  if s.m_updateArgs then
    (findAllList s.children, { s with m_args := findAllList s.children })
  else (s.m_args, s)

/-- Mirror of `basic_argument_set::add` (tap/Parser.hpp lines 720-725):
append the (cloned) node and set the update flag. -/
def ArgumentSetM.add (s : ArgumentSetM) (n : BaseNode) : ArgumentSetM :=
  { s with children := s.children ++ [n], m_updateArgs := true }

end TAP

/-! ## Claim C6 -/

/-- C6 counterexample: the claim asserts that `args()` filters out
duplicates — the same argument reached through more than one membership —
and recomputes only when `add()` has been called since the last
computation. But on a set holding the same declared argument through two
memberships (two clones sharing cell 0), `args()` returns that argument
twice, and after the computation the update flag is still set (the source
never assigns `m_updateArgs = false`), so the very next call recomputes
again even though no `add()` intervened. -/
theorem tap_C6_args_counterexample :
    (({ children := [.leaf 0, .leaf 0] } : TAP.ArgumentSetM).argsFn).1 = [0, 0] ∧
    (({ children := [.leaf 0, .leaf 0] } : TAP.ArgumentSetM).argsFn).2.m_updateArgs
      = true := by
  exact ⟨rfl, rfl⟩

/-- C6 as amended: `args()` returns the flattened list of declared
argument clones reachable under the set, one entry per membership with no
de-duplication (a list of leaf memberships comes back verbatim), and
because the update flag starts true, is set again by every `add()`, and
is never cleared, the list is recomputed on every call. -/
theorem tap_C6_args_amended (s : TAP.ArgumentSetM) (n : TAP.BaseNode) :
    (s.m_updateArgs = true →
      s.argsFn = (TAP.findAllList s.children,
        { s with m_args := TAP.findAllList s.children })) ∧
    (s.add n).m_updateArgs = true ∧
    (∀ cells : List Nat,
      TAP.findAllList (cells.map TAP.BaseNode.leaf) = cells) := by
  refine ⟨?_, rfl, ?_⟩
  · intro h
    simp [TAP.ArgumentSetM.argsFn, h]
  · intro cells
    induction cells with
    | nil => rfl
    | cons c rest ih => simp [TAP.findAllList, TAP.find_all_arguments, ih]

/-- Witness for C6 amended: a freshly built set recomputes on its first
call. -/
theorem tap_C6_args_amended_witness :
    ({ children := [.leaf 3] } : TAP.ArgumentSetM).argsFn
      = ([3], { children := [.leaf 3], m_args := [3] }) :=
  (tap_C6_args_amended { children := [.leaf 3] } (.leaf 0)).1 rfl

/-! ## Shared occurrence-counter cells (tap/Argument.hpp)

`basic_argument` holds its occurrence counter as
`std::shared_ptr<unsigned int> m_count` (line 71). The defaulted copy
constructor — used by `clone()` (lines 412-421) and hence by every value
copy an `add()` into a set or constraint takes — copies the shared
pointer, so all copies point at the one heap cell; `set()` increments
through it and `count()` reads through it (lines 358-377). The heap of
cells is modelled as a list of counters, and an argument stores the index
of its cell. -/

namespace TAP

/-- The copyable part of a `basic_argument` relevant to counter sharing:
its value-copied identity data and the shared-pointer target `m_count`,
as an index into the cell heap. -/
structure SharedArgument where
  flags : List Char := []
  required : Bool := false
  m_count : Nat
  deriving DecidableEq, Repr

/-- Mirror of the defaulted copy constructor behind `clone()` and the
value copies taken by `add()`: every field is copied, including the
shared pointer — the clone aliases the same counter cell. -/
def cloneArg (a : SharedArgument) : SharedArgument :=
  { flags := a.flags, required := a.required, m_count := a.m_count }

/-- An arbitrary chain of copies (clone of a clone of ...). -/
def cloneIter : Nat → SharedArgument → SharedArgument
  | 0, a => a
  | k + 1, a => cloneArg (cloneIter k a)

/-- Update one cell of the heap in place. -/
def modifyCell : List Nat → Nat → (Nat → Nat) → List Nat
  | [], _, _ => []
  | x :: xs, 0, f => f x :: xs
  | x :: xs, k + 1, f => x :: modifyCell xs k f

/-- Mirror of `basic_argument::count()`: read `*m_count`. -/
def SharedArgument.countIn (a : SharedArgument) (s : List Nat) : Nat :=
  s.getD a.m_count 0

/-- Mirror of `basic_argument::set()`: `(*m_count)++` (the check callback
is absent here). -/
def SharedArgument.setIn (a : SharedArgument) (s : List Nat) : List Nat :=
  modifyCell s a.m_count (fun c => c + 1)

/-- Mirror of a `basic_argument` constructor: every constructor runs
`m_count(std::make_shared<unsigned int>(0))`, allocating a fresh cell
initialized to zero. -/
def allocArgument (s : List Nat) (flags : List Char) :
    SharedArgument × List Nat :=
  ({ flags := flags, m_count := s.length }, s ++ [0])

end TAP

/-- Reading an updated cell back at the same valid index. -/
theorem getD_modifyCell (s : List Nat) (i : Nat) (f : Nat → Nat)
    (h : i < s.length) :
    (TAP.modifyCell s i f).getD i 0 = f (s.getD i 0) := by
  induction s generalizing i with
  | nil => simp at h
  | cons x xs ih =>
    cases i with
    | zero => rfl
    | succ k =>
      simpa [TAP.modifyCell] using ih k (by simpa using h)

/-! ## Claim C9 -/

/-- C9: every copy of a declared argument — produced by `clone()` or by
the value copies taken when it is added to an argument set or constraint
node — shares the one reference-counted counter cell with the original:
copies carry the same cell index, and after `set()` on any copy,
`count()` on any other copy (the original handle included) returns the
old count plus one. -/
theorem tap_C9_shared_counter (s : List Nat) (a : TAP.SharedArgument)
    (h : a.m_count < s.length) (n m : Nat) :
    (TAP.cloneIter n a).m_count = a.m_count ∧
    (TAP.cloneIter n a).countIn ((TAP.cloneIter m a).setIn s)
      = a.countIn s + 1 := by
  have hc : ∀ k, TAP.cloneIter k a = a := by
    intro k
    induction k with
    | zero => rfl
    | succ j ih => simp [TAP.cloneIter, TAP.cloneArg, ih]
  refine ⟨by rw [hc], ?_⟩
  rw [hc, hc]
  exact getD_modifyCell s a.m_count (fun c => c + 1) h

/-- Witness for C9: a freshly allocated argument, cloned twice on one
side and three times on the other, observes the increment through the
shared cell. -/
theorem tap_C9_shared_counter_witness :
    (TAP.cloneIter 2 { m_count := 0 }).countIn
        ((TAP.cloneIter 3 ({ m_count := 0 } : TAP.SharedArgument)).setIn [5])
      = ({ m_count := 0 } : TAP.SharedArgument).countIn [5] + 1 :=
  (tap_C9_shared_counter [5] { m_count := 0 } (by decide) 2 3).2
